import Mathlib

/-!
Verification of the EFI platform bridge (`mythril_efi/src/efiutils.rs`):
a shallow embedding of `EfiAllocator::allocate_frame`,
`EfiAllocator::deallocate_frame` and the free function `read_file`,
together with theorems about the behaviour the design document ascribes
to them.

Firmware calls are modelled by explicit oracles: each fallible boot-service
call is a value (or function) of type `Except Status _` supplied by the
environment, mirroring the fact that the code drives the firmware purely
through its `BootServices` table and inspects only success/failure plus the
returned payload.
-/

set_option autoImplicit false

namespace Mythril

/-- A raw UEFI status code carried by a failed firmware call.  The code under
verification always discards it via `.map_err(|_| ...)`, so only its presence
matters. -/
abbrev Status := Nat

/-- The subset of `mythril_core::error::Error` constructed in `efiutils.rs`:
`Error::Uefi(String)`, `Error::NullPtr(String)`, `Error::MissingFile(String)`,
plus the variant produced by `HostPhysFrame::from_start_address` on an
unaligned address (that constructor lives in `mythril_core`, outside this
crate; see `from_start_address`). -/
inductive Error where
  | uefi (msg : String)
  | nullPtr (msg : String)
  | missingFile (msg : String)
  | invalidFrame (msg : String)
deriving DecidableEq, Repr

/-- `PAGE_SIZE`: one physical page, 4096 bytes in this environment. -/
def pageSize : Nat := 4096

/-- `HostPhysFrame`: a physical frame descriptor holding its start address
(`frame.start_address().as_u64()` in the source). -/
structure HostPhysFrame where
  start_address : Nat
deriving DecidableEq, Repr

/-- Modelled from the spec: `HostPhysFrame::from_start_address` belongs to
`mythril_core` (not part of this crate's sources).  The spec's Physical
Frame data model makes page alignment an invariant of every constructed
frame ("a page-aligned physical address plus a fixed size"), so construction
from a raw address fails unless the address is aligned to the page size. -/
def from_start_address (addr : Nat) : Except Error HostPhysFrame :=
  if addr % pageSize = 0 then
    Except.ok ⟨addr⟩
  else
    Except.error (Error.invalidFrame "address not aligned to frame size")

/-- `uefi::table::boot::AllocateType`: the address-policy argument of
`allocate_pages`.  `allocate_frame` always passes `AnyPages`. -/
inductive AllocateType where
  | AnyPages
  | MaxAddress (addr : Nat)
  | Address (addr : Nat)
deriving DecidableEq, Repr

/-- `uefi::table::boot::MemoryType`, restricted to what the code uses:
`LOADER_DATA` is the boot-scratch memory type requested by
`allocate_frame`; other types are collapsed into `other`. -/
inductive MemoryType where
  | LOADER_DATA
  | other (code : Nat)
deriving DecidableEq, Repr

/-- One page-allocation request as submitted to
`BootServices::allocate_pages(ty, mem_ty, count)`. -/
structure AllocRequest where
  ty : AllocateType
  mem_ty : MemoryType
  count : Nat
deriving DecidableEq, Repr

/-- Byte-addressed physical memory, as far as the allocator touches it. -/
abbrev Memory := Nat → Nat

/-- `core::ptr::write_bytes(ptr, val, len)`: overwrite `len` bytes starting
at `start` with `val`. -/
def write_bytes (mem : Memory) (start : Nat) (val : Nat) (len : Nat) : Memory :=
  fun a => if start ≤ a ∧ a < start + len then val else mem a

/-- `EfiAllocator::allocate_frame`.  The firmware's `allocate_pages` entry
point is the oracle `fwAlloc`; the code requests `(AnyPages, LOADER_DATA, 1)`,
maps any failure to the fixed `Error::Uefi` message, zeroes all 4096 bytes at
the returned address, and builds the frame with
`HostPhysFrame::from_start_address`.  Returns the frame together with the
memory state after the zero fill. -/
def allocate_frame (fwAlloc : AllocRequest → Except Status Nat) (mem : Memory) :
    Except Error (HostPhysFrame × Memory) :=
  match fwAlloc ⟨AllocateType.AnyPages, MemoryType.LOADER_DATA, 1⟩ with
  | Except.error _ => Except.error (Error.uefi "EfiAllocator failed to allocate frame")
  | Except.ok pg =>
      let mem' := write_bytes mem pg 0 4096
      match from_start_address pg with
      | Except.error e => Except.error e
      | Except.ok f => Except.ok (f, mem')

/-- `EfiAllocator::deallocate_frame`.  The firmware's `free_pages` entry
point is the oracle `fwFree : address → page count → status`; the code calls
it once with `(frame.start_address().as_u64(), 1)` and maps failure to the
fixed `Error::Uefi` message.  The second component records the requests
issued to the firmware (`EfiAllocator` keeps no state of its own — its only
field is the borrowed `BootServices` reference — so the request trace is the
call's entire effect). -/
def deallocate_frame (fwFree : Nat → Nat → Except Status Unit)
    (frame : HostPhysFrame) : Except Error Unit × List (Nat × Nat) :=
  (match fwFree frame.start_address 1 with
   | Except.ok _ => Except.ok ()
   | Except.error _ =>
       Except.error (Error.uefi "EfiAllocator failed to deallocate frame"),
   [(frame.start_address, 1)])

/-- The fixed chunk size of the read loop: `let mut buff = [0u8; 1024]`. -/
def chunkSize : Nat := 1024

/-- One interaction of the read loop with `File::read(&mut buff)`:
either the firmware returns some bytes (`data`, written to the front of the
buffer, with `data.length` as the returned count — a firmware respecting the
API returns at most `chunkSize` bytes), or the read call fails.  A step list
describes the reads the file yields in order; once it is exhausted every
further read returns 0 bytes (end of stream). -/
inductive ReadStep where
  | chunk (data : List Nat)
  | fail (status : Status)
deriving DecidableEq, Repr

/-- The buffer after `read` wrote `data` to its front and returned
`data.length`. -/
def updateBuff (data buff : List Nat) : List Nat :=
  data ++ buff.drop data.length

/-- The `while f.read(&mut buff)? > 0 { contents.extend_from_slice(&buff); }`
loop of `read_file`, for a regular file whose successive reads are `steps`:
a failing read aborts with the path-naming `Error::Uefi` message; a read of 0
bytes ends the loop; otherwise the whole 1024-byte buffer (fresh bytes plus
the surviving tail) is appended to the accumulator. -/
def readLoop (path : String) : List ReadStep → List Nat → List Nat →
    Except Error (List Nat)
  | [], _, acc => Except.ok acc
  | ReadStep.fail _ :: _, _, _ =>
      Except.error (Error.uefi ("Failed to read file: " ++ path))
  | ReadStep.chunk data :: rest, buff, acc =>
      if data.length = 0 then
        Except.ok acc
      else
        readLoop path rest (updateBuff data buff) (acc ++ updateBuff data buff)

/-- Why the attempt to open the requested path on a volume failed: the
firmware may report the file absent, or any other error status.  The code's
`Err(_) => continue` arm ignores the distinction. -/
inductive OpenFailReason where
  | notFound
  | other (status : Status)
deriving DecidableEq, Repr

/-- How one enumerated volume behaves for the requested path: the first
firmware call of the per-volume body that fails, or — when everything up to
`into_type` succeeds — the resolved file type.  `regular steps` carries the
read interactions the file then yields. -/
inductive VolumeBehavior where
  | protoFail (status : Status)
  | protoNull
  | openVolumeFail (status : Status)
  | openFail (reason : OpenFailReason)
  | intoTypeFail (status : Status)
  | directory
  | regular (steps : List ReadStep)
deriving DecidableEq, Repr

/-- The body of `read_file`'s `for volume in volumes` loop for one volume:
`some r` means the loop returns `r` (success or error) from `read_file`;
`none` means the `continue` arm was taken and the search moves on. -/
def processVolume (path : String) : VolumeBehavior →
    Option (Except Error (List Nat))
  | VolumeBehavior.protoFail _ =>
      some (Except.error (Error.uefi "Failed to protocol for FS handle"))
  | VolumeBehavior.protoNull =>
      some (Except.error (Error.nullPtr "FS Protocol ptr was NULL"))
  | VolumeBehavior.openVolumeFail _ =>
      some (Except.error (Error.uefi "Failed to open volume"))
  | VolumeBehavior.openFail _ => none
  | VolumeBehavior.intoTypeFail _ =>
      some (Except.error (Error.uefi "Failed to convert file"))
  | VolumeBehavior.directory =>
      some (Except.error
        (Error.uefi ("Image file " ++ path ++ " was a directory")))
  | VolumeBehavior.regular steps =>
      some (readLoop path steps (List.replicate chunkSize 0) [])

/-- The `for volume in volumes` loop of `read_file`: process volumes in
enumeration order; falling off the end produces the `Error::MissingFile`
message naming the path. -/
def searchVolumes (path : String) : List VolumeBehavior → Except Error (List Nat)
  | [] =>
      Except.error (Error.missingFile ("Unable to find image file " ++ path))
  | v :: rest =>
      match processVolume path v with
      | some r => r
      | none => searchVolumes path rest

/-- One element of the `volumes` vector between its creation
(`vec![unsafe { MaybeUninit::uninit().assume_init() }; num_handles]`) and the
loop: either the second `locate_handle` call wrote a real handle into it
(carried here as that handle's behaviour for the requested path), or it still
holds the unpopulated sentinel. -/
inductive VolumeSlot where
  | written (v : VolumeBehavior)
  | uninit
deriving DecidableEq, Repr

/-- The `volumes` vector as the `for` loop consumes it: sized to `num`
(the count returned by the first `locate_handle` query) and filled by the
second `locate_handle` call with `written` handles; any tail the second call
did not populate keeps the uninitialised sentinel, and the loop iterates it
anyway. -/
def iteratedSlots (num : Nat) (written : List VolumeBehavior) : List VolumeSlot :=
  (written.take num).map VolumeSlot.written ++
    List.replicate (num - written.length) VolumeSlot.uninit

/-- Reading a slot of the `volumes` vector: a written slot yields its handle's
behaviour; dereferencing an unpopulated sentinel is undefined behaviour, so
its observed behaviour is an arbitrary value `g` chosen by the environment. -/
def slotValue (g : VolumeBehavior) : VolumeSlot → VolumeBehavior
  | VolumeSlot.written v => v
  | VolumeSlot.uninit => g

/-- The filesystem side of the firmware for one `read_file` call:
the result of the sizing `locate_handle(fs, None)` query and the handles the
second `locate_handle(fs, Some(&mut volumes))` call writes (as their
behaviours for the requested path). -/
structure FirmwareFs where
  countQuery : Except Status Nat
  fillQuery : Except Status (List VolumeBehavior)

/-- The free function `read_file(services, path)`: query the handle count
(failure aborts with the firmware-query message), retrieve the handle list
into the sentinel-filled vector (failure aborts with the firmware-read
message; the returned count is discarded by `let _ = ...`), then run the
per-volume search over every slot of the vector. -/
def read_file (path : String) (fw : FirmwareFs) (g : VolumeBehavior) :
    Except Error (List Nat) :=
  match fw.countQuery with
  | Except.error _ =>
      Except.error (Error.uefi "Failed to get number of FS handles")
  | Except.ok num =>
      match fw.fillQuery with
      | Except.error _ =>
          Except.error (Error.uefi "Failed to read FS handles")
      | Except.ok written =>
          searchVolumes path ((iteratedSlots num written).map (slotValue g))

/-- Whether a volume's behaviour is a non-fatally failing open attempt
(the `Err(_) => continue` arm). -/
def isOpenFail : VolumeBehavior → Bool
  | VolumeBehavior.openFail _ => true
  | _ => false

/-- Whether the volume's open of the requested path succeeds at all
(reaches `into_type`). -/
def openSucceeds : VolumeBehavior → Bool
  | VolumeBehavior.intoTypeFail _ => true
  | VolumeBehavior.directory => true
  | VolumeBehavior.regular _ => true
  | _ => false

/-- Whether a read step is a successful read of a nonzero byte count
(one more iteration of the loop body). -/
def isNonzeroChunk : ReadStep → Bool
  | ReadStep.chunk data => !(data.length == 0)
  | ReadStep.fail _ => false

/-- Whether an `Except` result is a success. -/
def isOk {α : Type} : Except Error α → Bool
  | Except.ok _ => true
  | Except.error _ => false

/-- Whether an `Except` result is specifically a `MissingFile` error. -/
def isMissingFile {α : Type} : Except Error α → Bool
  | Except.error (Error.missingFile _) => true
  | _ => false

/-- A step list respects the `read` API: no single read reports more bytes
than the 1024-byte buffer can hold. -/
def stepsWF (steps : List ReadStep) : Bool :=
  steps.all fun s =>
    match s with
    | ReadStep.chunk data => data.length ≤ chunkSize
    | ReadStep.fail _ => true

/-- A volume respects the `read` API: if it carries a regular file, none of
its reads reports more bytes than the buffer holds. -/
def volumeWF : VolumeBehavior → Bool
  | VolumeBehavior.regular steps => stepsWF steps
  | _ => true

/-- The number of reads that return a nonzero byte count before the loop
stops (list exhaustion stands for end-of-stream). -/
def nonzeroReads : List ReadStep → Nat
  | [] => 0
  | ReadStep.fail _ :: _ => 0
  | ReadStep.chunk data :: rest =>
      if data.length = 0 then 0 else 1 + nonzeroReads rest

/-- The read interactions of a well-behaved regular file whose full contents
are `c`: successive reads return the next at-most-1024-byte slice of `c`
until it is exhausted. -/
def chunksOf (c : List Nat) : List ReadStep :=
  if hc : c = [] then []
  else ReadStep.chunk (c.take chunkSize) :: chunksOf (c.drop chunkSize)
termination_by c.length
decreasing_by
  simp only [List.length_drop]
  have hpos : 0 < c.length := List.length_pos.mpr hc
  have : 0 < chunkSize := by decide
  omega

/-! ### Helper lemmas -/

/-- A block of volumes whose open attempts all fail is skipped wholesale. -/
theorem searchVolumes_skip (path : String) (pre vols : List VolumeBehavior)
    (h : ∀ v ∈ pre, isOpenFail v = true) :
    searchVolumes path (pre ++ vols) = searchVolumes path vols := by
  induction pre with
  | nil => rfl
  | cons v pre ih =>
      have hv : isOpenFail v = true := h v (List.mem_cons_self _ _)
      have hrest : ∀ u ∈ pre, isOpenFail u = true :=
        fun u hu => h u (List.mem_cons_of_mem _ hu)
      cases v with
      | openFail r => simpa [searchVolumes, processVolume] using ih hrest
      | protoFail s => simp [isOpenFail] at hv
      | protoNull => simp [isOpenFail] at hv
      | openVolumeFail s => simp [isOpenFail] at hv
      | intoTypeFail s => simp [isOpenFail] at hv
      | directory => simp [isOpenFail] at hv
      | regular steps => simp [isOpenFail] at hv

/-- When the fill call populates every slot the count query sized, the search
runs exactly over the populated handles' behaviours. -/
theorem read_file_full (path : String) (vols : List VolumeBehavior)
    (g : VolumeBehavior) :
    read_file path ⟨Except.ok vols.length, Except.ok vols⟩ g =
      searchVolumes path vols := by
  show searchVolumes path ((iteratedSlots vols.length vols).map (slotValue g)) = _
  congr 1
  simp [iteratedSlots, List.take_length, List.map_map]
  show vols.map (fun v => v) = vols
  exact List.map_id' vols

/-- `updateBuff` keeps the buffer length when the read respects the API. -/
theorem updateBuff_length (data buff : List Nat) (h : data.length ≤ buff.length) :
    (updateBuff data buff).length = buff.length := by
  simp [updateBuff, List.length_drop]
  omega

/-- Every successful run of the read loop appends one full buffer per
nonzero read: the result extends the accumulator by `chunkSize` bytes for
each read that returned a nonzero count. -/
theorem readLoop_length (path : String) (steps : List ReadStep) :
    ∀ (buff acc res : List Nat), stepsWF steps = true →
      buff.length = chunkSize →
      readLoop path steps buff acc = Except.ok res →
      res.length = acc.length + chunkSize * nonzeroReads steps := by
  induction steps with
  | nil =>
      intro buff acc res _ _ h
      obtain rfl : acc = res := by simpa [readLoop] using h
      simp [nonzeroReads]
  | cons st rest ih =>
      intro buff acc res hwf hbuff h
      cases st with
      | fail s => simp [readLoop] at h
      | chunk data =>
          have hdata : data.length ≤ chunkSize := by
            have := hwf
            simp [stepsWF] at this
            exact this.1
          have hrest : stepsWF rest = true := by
            have := hwf
            simp [stepsWF] at this ⊢
            exact this.2
          by_cases hz : data.length = 0
          · obtain rfl : acc = res := by simpa [readLoop, hz] using h
            simp [nonzeroReads, hz]
          · rw [readLoop, if_neg hz] at h
            have hbuff' : (updateBuff data buff).length = chunkSize := by
              rw [updateBuff_length data buff (hbuff ▸ hdata)]
              exact hbuff
            have := ih (updateBuff data buff) (acc ++ updateBuff data buff) res
              hrest hbuff' h
            rw [List.length_append, hbuff'] at this
            rw [this, nonzeroReads, if_neg hz, Nat.mul_add, Nat.mul_one]
            omega

/-- Running the read loop over the canonical reads of a file with contents
`c` succeeds and appends `c` followed by the padding of the final chunk. -/
theorem readLoop_chunksOf (path : String) :
    ∀ (n : Nat) (c : List Nat), c.length ≤ n → ∀ (buff acc : List Nat),
      buff.length = chunkSize →
      ∃ out, readLoop path (chunksOf c) buff acc = Except.ok (acc ++ out) ∧
        out.take c.length = c ∧
        out.length = chunkSize * nonzeroReads (chunksOf c) := by
  intro n
  induction n with
  | zero =>
      intro c hc buff acc _
      obtain rfl : c = [] := List.length_eq_zero.mp (Nat.le_zero.mp hc)
      exact ⟨[], by simp [chunksOf, readLoop, nonzeroReads]⟩
  | succ n ih =>
      intro c hc buff acc hbuff
      by_cases hce : c = []
      · subst hce
        exact ⟨[], by simp [chunksOf, readLoop, nonzeroReads]⟩
      · have hstep : chunksOf c =
            ReadStep.chunk (c.take chunkSize) :: chunksOf (c.drop chunkSize) := by
          rw [chunksOf]
          simp [hce]
        have hcpos : 0 < c.length := List.length_pos.mpr hce
        have hdlen : (c.take chunkSize).length = min chunkSize c.length :=
          List.length_take _ _
        have hdne : (c.take chunkSize).length ≠ 0 := by
          rw [hdlen]
          have : 0 < chunkSize := by decide
          omega
        have hdle : (c.take chunkSize).length ≤ chunkSize := by
          rw [hdlen]
          omega
        have hbuff' : (updateBuff (c.take chunkSize) buff).length = chunkSize := by
          rw [updateBuff_length _ _ (hbuff ▸ hdle)]
          exact hbuff
        have hdrople : (c.drop chunkSize).length ≤ n := by
          rw [List.length_drop]
          have : 0 < chunkSize := by decide
          omega
        obtain ⟨out', hrun, htake, hlen⟩ :=
          ih (c.drop chunkSize) hdrople (updateBuff (c.take chunkSize) buff)
            (acc ++ updateBuff (c.take chunkSize) buff) hbuff'
        refine ⟨updateBuff (c.take chunkSize) buff ++ out', ?_, ?_, ?_⟩
        · rw [hstep, readLoop, if_neg hdne, hrun, List.append_assoc]
        · by_cases hsmall : c.length ≤ chunkSize
          · have hdropnil : c.drop chunkSize = [] := List.drop_eq_nil_of_le hsmall
            have hout' : out' = [] := by
              have : out'.length = 0 := by
                rw [hlen, hdropnil]
                simp [chunksOf, nonzeroReads]
              exact List.length_eq_zero.mp this
            have htakec : c.take chunkSize = c := List.take_of_length_le hsmall
            rw [hout', List.append_nil, htakec, updateBuff]
            exact List.take_left c _
          · have hdfull : (c.take chunkSize).length = chunkSize := by
              rw [hdlen]
              omega
            have hbdrop : buff.drop (c.take chunkSize).length = [] := by
              apply List.drop_eq_nil_of_le
              rw [hdfull, hbuff]
            have hbuffeq : updateBuff (c.take chunkSize) buff = c.take chunkSize := by
              rw [updateBuff, hbdrop, List.append_nil]
            rw [hbuffeq, List.take_append_eq_append_take]
            have h1 : (c.take chunkSize).take c.length = c.take chunkSize := by
              apply List.take_of_length_le
              rw [hdfull]
              omega
            have h2 : c.length - (c.take chunkSize).length = (c.drop chunkSize).length := by
              rw [hdfull, List.length_drop]
            rw [h1, h2, htake]
            exact List.take_append_drop chunkSize c
        · rw [List.length_append, hbuff', hlen, hstep, nonzeroReads, if_neg hdne,
            Nat.mul_add, Nat.mul_one]

/-- A successful search comes from the read loop of some regular-file volume
in the list. -/
theorem searchVolumes_ok_regular (path : String) :
    ∀ (vols : List VolumeBehavior) (res : List Nat),
      searchVolumes path vols = Except.ok res →
      ∃ steps, VolumeBehavior.regular steps ∈ vols ∧
        readLoop path steps (List.replicate chunkSize 0) [] = Except.ok res := by
  intro vols
  induction vols with
  | nil => intro res h; simp [searchVolumes] at h
  | cons v rest ih =>
      intro res h
      cases v with
      | protoFail s => simp [searchVolumes, processVolume] at h
      | protoNull => simp [searchVolumes, processVolume] at h
      | openVolumeFail s => simp [searchVolumes, processVolume] at h
      | openFail r =>
          obtain ⟨steps, hmem, hrun⟩ := ih res h
          exact ⟨steps, List.mem_cons_of_mem _ hmem, hrun⟩
      | intoTypeFail s => simp [searchVolumes, processVolume] at h
      | directory => simp [searchVolumes, processVolume] at h
      | regular steps =>
          refine ⟨steps, List.mem_cons_self _ _, ?_⟩
          simpa [searchVolumes, processVolume] using h

/-- A failing read aborts the loop with the path-naming read error, whatever
reads preceded it. -/
theorem readLoop_fail (path : String) :
    ∀ (spre : List ReadStep) (s : Status) (srest : List ReadStep)
      (buff acc : List Nat),
      (∀ st ∈ spre, isNonzeroChunk st = true) →
      readLoop path (spre ++ ReadStep.fail s :: srest) buff acc =
        Except.error (Error.uefi ("Failed to read file: " ++ path)) := by
  intro spre
  induction spre with
  | nil => intro s srest buff acc _; rfl
  | cons st spre ih =>
      intro s srest buff acc h
      have hst : isNonzeroChunk st = true := h st (List.mem_cons_self _ _)
      have hrest : ∀ u ∈ spre, isNonzeroChunk u = true :=
        fun u hu => h u (List.mem_cons_of_mem _ hu)
      cases st with
      | fail s0 => simp [isNonzeroChunk] at hst
      | chunk data =>
          have hz : ¬ data.length = 0 := by
            simp [isNonzeroChunk] at hst
            simpa using hst
          rw [List.cons_append, readLoop, if_neg hz]
          exact ih s srest _ _ hrest

/-! ### Claims about the frame allocator -/

/-- Claim C1: for every successful call to `allocate_frame`, the returned
frame's start address equals exactly the address the firmware returned for
the 1-page boot-scratch (`LOADER_DATA`) allocation, the frame is
page-aligned, and all 4096 bytes of the frame read as zero immediately after
the call returns. -/
theorem allocate_frame_aligned_zeroed (fwAlloc : AllocRequest → Except Status Nat)
    (mem : Memory) (f : HostPhysFrame) (mem' : Memory)
    (h : allocate_frame fwAlloc mem = Except.ok (f, mem')) :
    fwAlloc ⟨AllocateType.AnyPages, MemoryType.LOADER_DATA, 1⟩ =
      Except.ok f.start_address ∧
    f.start_address % pageSize = 0 ∧
    ∀ a : Nat, f.start_address ≤ a → a < f.start_address + pageSize →
      mem' a = 0 := by
  unfold allocate_frame at h
  cases hfw : fwAlloc ⟨AllocateType.AnyPages, MemoryType.LOADER_DATA, 1⟩ with
  | error s => rw [hfw] at h; cases h
  | ok pg =>
      rw [hfw] at h
      by_cases hal : pg % pageSize = 0
      · simp only [from_start_address, hal, if_true] at h
        obtain ⟨hf, hm⟩ : HostPhysFrame.mk pg = f ∧ write_bytes mem pg 0 4096 = mem' := by
          simpa using h
        subst hf
        subst hm
        refine ⟨rfl, hal, ?_⟩
        intro a h1 h2
        simp only [HostPhysFrame.start_address] at h1 h2
        have : pg ≤ a ∧ a < pg + 4096 := ⟨h1, h2⟩
        simp [write_bytes, this]
      · simp only [from_start_address, hal, if_false] at h
        cases h

/-- Witness for C1: the spec's scenario — the firmware returns `0x100000`
(1048576); the frame starts there, is aligned, and the page reads zero. -/
theorem allocate_frame_aligned_zeroed_witness :
    (fun _ : AllocRequest => (Except.ok 1048576 : Except Status Nat))
        ⟨AllocateType.AnyPages, MemoryType.LOADER_DATA, 1⟩ =
      Except.ok (HostPhysFrame.mk 1048576).start_address ∧
    (HostPhysFrame.mk 1048576).start_address % pageSize = 0 ∧
    ∀ a : Nat, (HostPhysFrame.mk 1048576).start_address ≤ a →
      a < (HostPhysFrame.mk 1048576).start_address + pageSize →
      write_bytes (fun _ => 37) 1048576 0 4096 a = 0 :=
  allocate_frame_aligned_zeroed (fun _ => Except.ok 1048576) (fun _ => 37)
    ⟨1048576⟩ (write_bytes (fun _ => 37) 1048576 0 4096) rfl

/-- Claim C9: `deallocate_frame` requests release of exactly one page at the
frame's start address; when the firmware rejects the address it fails with
the deallocation-failure error, and the request trace is its only effect
(the allocator keeps no bookkeeping of outstanding frames). -/
theorem deallocate_frame_single_request (fwFree : Nat → Nat → Except Status Unit)
    (frame : HostPhysFrame) (s : Status)
    (h : fwFree frame.start_address 1 = Except.error s) :
    (deallocate_frame fwFree frame).2 = [(frame.start_address, 1)] ∧
    (deallocate_frame fwFree frame).1 =
      Except.error (Error.uefi "EfiAllocator failed to deallocate frame") := by
  refine ⟨rfl, ?_⟩
  simp [deallocate_frame, h]

/-- Witness for C9: a firmware that rejects every free request. -/
theorem deallocate_frame_single_request_witness :
    (deallocate_frame (fun _ _ => Except.error 5) ⟨4096⟩).2 = [(4096, 1)] ∧
    (deallocate_frame (fun _ _ => Except.error 5) ⟨4096⟩).1 =
      Except.error (Error.uefi "EfiAllocator failed to deallocate frame") :=
  deallocate_frame_single_request (fun _ _ => Except.error 5) ⟨4096⟩ 5 rfl

/-! ### Claims about the file loader -/

/-- Claim C2 fails as stated: a volume sequence can hold the regular file at
index 1 with no earlier volume's open succeeding, and yet `read_file` fails —
here volume 0 aborts the whole search at protocol resolution before the
file-bearing volume is reached. -/
theorem read_file_nth_volume_counterexample :
    openSucceeds (VolumeBehavior.protoFail 7) = false ∧
    isOk (read_file "vmlinuz"
      ⟨Except.ok 2,
       Except.ok [VolumeBehavior.protoFail 7,
                  VolumeBehavior.regular (chunksOf [1])]⟩
      VolumeBehavior.protoNull) = false := ⟨rfl, rfl⟩

/-- Claim C2 (amended): for every path and every volume sequence in which a
regular file with contents `c` sits at the Nth enumerated volume and every
earlier volume's processing reaches the file-open attempt and that open
fails, `read_file` succeeds and the returned buffer is exactly `c` followed
by the documented trailing padding of the final chunk, regardless of N. -/
theorem read_file_nth_volume_amended (path : String)
    (pre post : List VolumeBehavior) (c : List Nat) (g : VolumeBehavior)
    (hpre : ∀ v ∈ pre, isOpenFail v = true) :
    ∃ pad,
      read_file path
        ⟨Except.ok (pre ++ VolumeBehavior.regular (chunksOf c) :: post).length,
         Except.ok (pre ++ VolumeBehavior.regular (chunksOf c) :: post)⟩ g =
        Except.ok (c ++ pad) ∧
      c.length + pad.length = chunkSize * nonzeroReads (chunksOf c) := by
  rw [read_file_full, searchVolumes_skip path pre _ hpre]
  obtain ⟨out, hrun, htake, hlen⟩ :=
    readLoop_chunksOf path c.length c (le_refl _)
      (List.replicate chunkSize 0) [] (by simp)
  have hle : c.length ≤ out.length := by
    have := congrArg List.length htake
    simp [List.length_take] at this
    omega
  have hout : c ++ out.drop c.length = out := by
    nth_rewrite 1 [← htake]
    exact List.take_append_drop _ _
  refine ⟨out.drop c.length, ?_, ?_⟩
  · show searchVolumes path (VolumeBehavior.regular (chunksOf c) :: post) = _
    simp only [searchVolumes, processVolume]
    rw [hrun, hout]
    rfl
  · rw [List.length_drop, ← hlen]
    omega

/-- Witness for C2 (amended): the file `[1, 2, 3]` on volume 1 behind a
volume where the open fails with "not found". -/
theorem read_file_nth_volume_amended_witness :
    ∃ pad,
      read_file "vmlinuz"
        ⟨Except.ok ([VolumeBehavior.openFail OpenFailReason.notFound] ++
            VolumeBehavior.regular (chunksOf [1, 2, 3]) :: []).length,
         Except.ok ([VolumeBehavior.openFail OpenFailReason.notFound] ++
            VolumeBehavior.regular (chunksOf [1, 2, 3]) :: [])⟩
        VolumeBehavior.protoNull =
        Except.ok ([1, 2, 3] ++ pad) ∧
      ([1, 2, 3] : List Nat).length + pad.length =
        chunkSize * nonzeroReads (chunksOf [1, 2, 3]) :=
  read_file_nth_volume_amended "vmlinuz"
    [VolumeBehavior.openFail OpenFailReason.notFound] [] [1, 2, 3]
    VolumeBehavior.protoNull (by decide)

/-- Claim C3: when every earlier volume's open attempt fails and the first
volume whose open succeeds holds a directory at the path, `read_file` fails
with the "is a directory" error (`Error::Uefi` carrying the directory
message — the spec's `UnexpectedFileType` kind) and no later volume is
consulted: the result is the same for every suffix `post`, including ones
holding the real file. -/
theorem read_file_directory_aborts (path : String)
    (pre post : List VolumeBehavior) (g : VolumeBehavior)
    (hpre : ∀ v ∈ pre, isOpenFail v = true) :
    read_file path
      ⟨Except.ok (pre ++ VolumeBehavior.directory :: post).length,
       Except.ok (pre ++ VolumeBehavior.directory :: post)⟩ g =
      Except.error
        (Error.uefi ("Image file " ++ path ++ " was a directory")) := by
  rw [read_file_full, searchVolumes_skip path pre _ hpre]
  rfl

/-- Witness for C3: the spec's three-volume scenario — volume 0 lacks the
file, volume 1 has a directory, volume 2 has the real file; the directory
error wins and volume 2 is never consulted. -/
theorem read_file_directory_aborts_witness :
    read_file "img"
      ⟨Except.ok ([VolumeBehavior.openFail OpenFailReason.notFound] ++
          VolumeBehavior.directory :: [VolumeBehavior.regular (chunksOf [7])]).length,
       Except.ok ([VolumeBehavior.openFail OpenFailReason.notFound] ++
          VolumeBehavior.directory :: [VolumeBehavior.regular (chunksOf [7])])⟩
      VolumeBehavior.protoNull =
      Except.error
        (Error.uefi ("Image file " ++ "img" ++ " was a directory")) :=
  read_file_directory_aborts "img"
    [VolumeBehavior.openFail OpenFailReason.notFound]
    [VolumeBehavior.regular (chunksOf [7])] VolumeBehavior.protoNull (by decide)

/-- Claim C4: every successful `read_file` result comes from some
regular-file volume of the sequence, and its length is exactly the fixed
chunk size (1024) times the number of reads that returned a nonzero byte
count — each chunk is appended in full, padding included. -/
theorem read_file_buffer_length (path : String) (vols : List VolumeBehavior)
    (g : VolumeBehavior) (res : List Nat)
    (hwf : ∀ v ∈ vols, volumeWF v = true)
    (h : read_file path ⟨Except.ok vols.length, Except.ok vols⟩ g =
      Except.ok res) :
    ∃ steps, VolumeBehavior.regular steps ∈ vols ∧
      res.length = chunkSize * nonzeroReads steps := by
  rw [read_file_full] at h
  obtain ⟨steps, hmem, hrun⟩ := searchVolumes_ok_regular path vols res h
  have hswf : stepsWF steps = true := by
    have := hwf _ hmem
    simpa [volumeWF] using this
  refine ⟨steps, hmem, ?_⟩
  have hl := readLoop_length path steps (List.replicate chunkSize 0) [] res
    hswf (by simp) hrun
  simpa using hl

/-- Witness for C4: one read of 2 bytes yields a 1024-byte buffer
(1024 · 1). -/
theorem read_file_buffer_length_witness :
    ∃ steps,
      VolumeBehavior.regular steps ∈
        [VolumeBehavior.regular [ReadStep.chunk [1, 2]]] ∧
      (updateBuff [1, 2] (List.replicate chunkSize 0)).length =
        chunkSize * nonzeroReads steps :=
  read_file_buffer_length "boot" [VolumeBehavior.regular [ReadStep.chunk [1, 2]]]
    VolumeBehavior.protoNull (updateBuff [1, 2] (List.replicate chunkSize 0))
    (by decide) rfl

/-- Claim C5: every failure of the per-volume file-open attempt — the
firmware reporting the file absent or any other open failure — is non-fatal:
the search over the remaining volumes continues unchanged. -/
theorem read_file_open_failure_nonfatal (path : String) (r : OpenFailReason)
    (rest : List VolumeBehavior) :
    searchVolumes path (VolumeBehavior.openFail r :: rest) =
      searchVolumes path rest := rfl

/-- Claim C6 fails as stated: a sequence whose only volume aborts at
protocol resolution yields no successful open of a regular file, yet
`read_file` does not fail with the missing-file error — it propagates the
protocol error instead. -/
theorem read_file_missing_counterexample :
    openSucceeds (VolumeBehavior.protoFail 3) = false ∧
    isMissingFile (read_file "initrd"
      ⟨Except.ok 1, Except.ok [VolumeBehavior.protoFail 3]⟩
      VolumeBehavior.protoNull) = false := ⟨rfl, rfl⟩

/-- Claim C6 (amended): for every path for which every enumerated volume's
processing reaches the file-open attempt and that open fails, `read_file`
fails with the `MissingFile` error naming the requested path. -/
theorem read_file_missing_amended (path : String) (vols : List VolumeBehavior)
    (g : VolumeBehavior) (h : ∀ v ∈ vols, isOpenFail v = true) :
    read_file path ⟨Except.ok vols.length, Except.ok vols⟩ g =
      Except.error
        (Error.missingFile ("Unable to find image file " ++ path)) := by
  rw [read_file_full]
  have hskip := searchVolumes_skip path vols [] h
  rw [List.append_nil] at hskip
  rw [hskip]
  rfl

/-- Witness for C6 (amended): two volumes, one "not found" and one other
open failure; the search exhausts and names the path. -/
theorem read_file_missing_amended_witness :
    read_file "initrd"
      ⟨Except.ok ([VolumeBehavior.openFail OpenFailReason.notFound,
                   VolumeBehavior.openFail (OpenFailReason.other 9)]).length,
       Except.ok [VolumeBehavior.openFail OpenFailReason.notFound,
                  VolumeBehavior.openFail (OpenFailReason.other 9)]⟩
      VolumeBehavior.protoNull =
      Except.error
        (Error.missingFile ("Unable to find image file " ++ "initrd")) :=
  read_file_missing_amended "initrd"
    [VolumeBehavior.openFail OpenFailReason.notFound,
     VolumeBehavior.openFail (OpenFailReason.other 9)]
    VolumeBehavior.protoNull (by decide)

/-- Claim C7: once a regular file is being read, a failing chunk read aborts
the whole `read_file` call with the path-naming file-read error — the
`Except.error` result carries no partial buffer. -/
theorem read_file_read_failure_fatal (path : String)
    (pre : List VolumeBehavior) (spre : List ReadStep) (s : Status)
    (srest : List ReadStep) (post : List VolumeBehavior) (g : VolumeBehavior)
    (hpre : ∀ v ∈ pre, isOpenFail v = true)
    (hspre : ∀ st ∈ spre, isNonzeroChunk st = true) :
    read_file path
      ⟨Except.ok (pre ++
          VolumeBehavior.regular (spre ++ ReadStep.fail s :: srest) :: post).length,
       Except.ok (pre ++
          VolumeBehavior.regular (spre ++ ReadStep.fail s :: srest) :: post)⟩ g =
      Except.error (Error.uefi ("Failed to read file: " ++ path)) := by
  rw [read_file_full, searchVolumes_skip path pre _ hpre]
  simp only [searchVolumes, processVolume]
  exact readLoop_fail path spre s srest _ _ hspre

/-- Witness for C7: a read of one byte followed by a failing read. -/
theorem read_file_read_failure_fatal_witness :
    read_file "cfg"
      ⟨Except.ok 1,
       Except.ok [VolumeBehavior.regular [ReadStep.chunk [5], ReadStep.fail 2]]⟩
      VolumeBehavior.protoNull =
      Except.error (Error.uefi ("Failed to read file: " ++ "cfg")) :=
  read_file_read_failure_fatal "cfg" [] [ReadStep.chunk [5]] 2 [] []
    VolumeBehavior.protoNull (by decide) (by decide)

/-- Claim C8 fails as stated: when the count query reports 2 handles but the
retrieval call populates only 1, the loop nevertheless iterates the second,
still-unpopulated sentinel element of the handle buffer. -/
theorem read_file_uninit_counterexample :
    VolumeSlot.uninit ∈
      iteratedSlots 2 [VolumeBehavior.openFail OpenFailReason.notFound] := by
  decide

/-- Claim C8 (amended): the handle buffer is sized exactly by the prior
count query, but the loop iterates every one of its elements — the
firmware-populated entries in order followed by the unpopulated sentinels —
so whenever the retrieval call populates fewer handles than the count query
reported, an unpopulated element is read. -/
theorem iteratedSlots_amended (num : Nat) (written : List VolumeBehavior)
    (h : written.length ≤ num) :
    (iteratedSlots num written).length = num ∧
    iteratedSlots num written =
      written.map VolumeSlot.written ++
        List.replicate (num - written.length) VolumeSlot.uninit ∧
    (written.length < num →
      VolumeSlot.uninit ∈ iteratedSlots num written) := by
  have htake : written.take num = written := List.take_of_length_le h
  refine ⟨?_, ?_, ?_⟩
  · simp [iteratedSlots, htake]
    omega
  · rw [iteratedSlots, htake]
  · intro hlt
    rw [iteratedSlots, htake]
    apply List.mem_append_right
    rw [List.mem_replicate]
    exact ⟨by omega, rfl⟩

/-- Witness for C8 (amended): a 3-slot buffer with a single populated
handle. -/
theorem iteratedSlots_amended_witness :
    (iteratedSlots 3 [VolumeBehavior.protoNull]).length = 3 ∧
    iteratedSlots 3 [VolumeBehavior.protoNull] =
      [VolumeBehavior.protoNull].map VolumeSlot.written ++
        List.replicate (3 - ([VolumeBehavior.protoNull]).length)
          VolumeSlot.uninit ∧
    (([VolumeBehavior.protoNull]).length < 3 →
      VolumeSlot.uninit ∈ iteratedSlots 3 [VolumeBehavior.protoNull]) :=
  iteratedSlots_amended 3 [VolumeBehavior.protoNull] (by decide)

/-- Claim C10: every failure of `read_file` other than the per-volume
file-open attempt — handle-count query failure, handle-list retrieval
failure, protocol-resolution failure, null protocol instance, volume-open
failure (and the file-type conversion failure) — aborts the whole call
immediately with the corresponding error, regardless of the volumes that
follow. -/
theorem read_file_abort_errors (path : String) :
    (∀ (s : Status) (fill : Except Status (List VolumeBehavior))
        (g : VolumeBehavior),
      read_file path ⟨Except.error s, fill⟩ g =
        Except.error (Error.uefi "Failed to get number of FS handles")) ∧
    (∀ (num : Nat) (s : Status) (g : VolumeBehavior),
      read_file path ⟨Except.ok num, Except.error s⟩ g =
        Except.error (Error.uefi "Failed to read FS handles")) ∧
    (∀ (s : Status) (rest : List VolumeBehavior) (g : VolumeBehavior),
      read_file path
        ⟨Except.ok (VolumeBehavior.protoFail s :: rest).length,
         Except.ok (VolumeBehavior.protoFail s :: rest)⟩ g =
        Except.error (Error.uefi "Failed to protocol for FS handle")) ∧
    (∀ (rest : List VolumeBehavior) (g : VolumeBehavior),
      read_file path
        ⟨Except.ok (VolumeBehavior.protoNull :: rest).length,
         Except.ok (VolumeBehavior.protoNull :: rest)⟩ g =
        Except.error (Error.nullPtr "FS Protocol ptr was NULL")) ∧
    (∀ (s : Status) (rest : List VolumeBehavior) (g : VolumeBehavior),
      read_file path
        ⟨Except.ok (VolumeBehavior.openVolumeFail s :: rest).length,
         Except.ok (VolumeBehavior.openVolumeFail s :: rest)⟩ g =
        Except.error (Error.uefi "Failed to open volume")) ∧
    (∀ (s : Status) (rest : List VolumeBehavior) (g : VolumeBehavior),
      read_file path
        ⟨Except.ok (VolumeBehavior.intoTypeFail s :: rest).length,
         Except.ok (VolumeBehavior.intoTypeFail s :: rest)⟩ g =
        Except.error (Error.uefi "Failed to convert file")) := by
  refine ⟨fun s fill g => rfl, fun num s g => rfl, ?_, ?_, ?_, ?_⟩
  · intro s rest g
    rw [read_file_full]
    rfl
  · intro rest g
    rw [read_file_full]
    rfl
  · intro s rest g
    rw [read_file_full]
    rfl
  · intro s rest g
    rw [read_file_full]
    rfl

end Mythril
